import Mathlib

/-!
Shallow embedding of the document-ingestion and similarity-retrieval pipeline
of the repository (src/data_processing and src/api), together with proofs
about its specification claims.

Conventions of the embedding:
* Python floats are modelled by rationals where the code only moves values
  around, and by real numbers where the code computes square roots
  (cosine similarity).
* Python exceptions are modelled by the Except monad; a per-item
  try/except that logs and continues is modelled by a match that leaves
  the accumulator unchanged on the error branch.
* A directory of JSON files is modelled by an association list keyed by
  file name stem; writing a file prepends an entry, and reading takes the
  first (most recent) entry for the key, which matches overwrite semantics.
* Library functions that live outside this repository (file system,
  langchain loaders and splitter, the OpenAI embeddings API, hashlib,
  the Chroma client) are abstracted into an environment record, modelled
  from the spec.
-/

/-- A JSON value, as produced by Python json parsing.  Numbers are
modelled as rationals. -/
inductive Json where
  | null : Json
  | bool (b : Bool) : Json
  | num (q : ℚ) : Json
  | str (s : String) : Json
  | arr (items : List Json) : Json
  | obj (fields : List (String × Json)) : Json

/-- A langchain Document: the only fields this repository reads or writes
are page_content and metadata. -/
structure Document where
  page_content : String
  metadata : List (String × Json)

/-- Split a character list at every occurrence of a separator character
(Python str.split with a one-character separator, over code points).
Structural, so that concrete inputs reduce definitionally. -/
def splitChar (sep : Char) : List Char → List (List Char)
  | [] => [[]]
  | c :: cs =>
    if c = sep then [] :: splitChar sep cs
    else
      match splitChar sep cs with
      | [] => [[c]]
      | g :: gs => (c :: g) :: gs

/-- Python str.split with a one-character separator. -/
def splitOnChar (s : String) (sep : Char) : List String :=
  (splitChar sep s.data).map (fun cs => ⟨cs⟩)

/-- Python s sliced to its first n characters (code points). -/
def strTake (s : String) (n : Nat) : String := ⟨s.data.take n⟩

/-- Python str.lower, per code point. -/
def strToLower (s : String) : String := ⟨s.data.map Char.toLower⟩

/-- Python os.path.basename: the component after the last slash. -/
def basename (p : String) : String :=
  (splitOnChar p '/').getLastD ""

/-- Python s.split (dot) indexed at 0: the text before the first dot
(the whole string when there is no dot). -/
def firstDotComponent (s : String) : String :=
  (splitOnChar s '.').headD ""

/-- Python s.split (dot) indexed at -1: the text after the last dot
(the whole string when there is no dot). -/
def lastDotComponent (s : String) : String :=
  (splitOnChar s '.').getLastD ""

/-- JsonSerializer._generate_document_id, on the branch save_chunks uses
(a content hash is always supplied there): the stem of the base name,
an underscore, and the first 8 characters of the hash hex digest. -/
def generate_document_id (file_path content_hash : String) : String :=
  firstDotComponent (basename file_path) ++ "_" ++ strTake content_hash 8

/-- Contents of a chunks JSON file written by JsonSerializer.save_chunks
(the processed_at timestamp is not modelled; nothing reads it). -/
structure ChunkFileData where
  document_id : String
  original_file : String
  chunk_count : Nat
  chunks : List Document

/-- One element of the items array of an embeddings JSON file. -/
structure EmbeddingItem where
  text : String
  metadata : List (String × Json)
  embedding : List ℚ

/-- Contents of an embeddings JSON file written by
JsonSerializer.save_embeddings (created_at and the constant model name are
not modelled; nothing reads them). -/
structure EmbeddingFileData where
  document_id : String
  embedding_count : Nat
  embedding_dimensions : Nat
  items : List EmbeddingItem

/-- JsonSerializer.save_chunks: returns None and writes nothing for an
empty document list; otherwise derives the document id from the first
chunk and writes the chunks JSON file.  The hash function of hashlib is
passed in as sha256hex. -/
def save_chunks (sha256hex : String → String)
    (st : List (String × ChunkFileData)) (documents : List Document)
    (file_path : String) : Option String × List (String × ChunkFileData) :=
  match documents with
  | [] => (none, st)
  | d :: _ =>
    let content_hash := sha256hex d.page_content
    let document_id := generate_document_id file_path content_hash
    (some document_id,
      (document_id,
        ⟨document_id, file_path, documents.length, documents⟩) :: st)

/-- JsonSerializer.load_chunks: raises FileNotFoundError when the chunks
JSON file is missing, otherwise returns the chunks. -/
def load_chunks (st : List (String × ChunkFileData))
    (document_id : String) : Except String (List Document) :=
  match st.lookup document_id with
  | none => .error ("Arquivo de chunks nao encontrado: " ++ document_id)
  | some data => .ok data.chunks

/-- The text truncation save_embeddings applies to each stored text:
text sliced to 200 characters, with an ellipsis appended when the text
was longer than 200 characters. -/
def truncateText (text : String) : String :=
  strTake text 200 ++ (if 200 < text.length then "..." else "")

/-- JsonSerializer.save_embeddings: zips texts, metadatas and embeddings
(as Python zip, stopping at the shortest), truncates each text, and writes
the embeddings JSON file; returns the written path. -/
def save_embeddings (st : List (String × EmbeddingFileData))
    (document_id : String) (embeddings : List (List ℚ)) (texts : List String)
    (metadatas : List (List (String × Json))) :
    String × List (String × EmbeddingFileData) :=
  let items := (texts.zip (metadatas.zip embeddings)).map
    (fun p => ⟨truncateText p.1, p.2.1, p.2.2⟩)
  (document_id ++ "_embeddings.json",
    (document_id,
      ⟨document_id, embeddings.length, (embeddings.headD []).length, items⟩) :: st)

/-- The dictionary returned by JsonSerializer.load_embeddings. -/
structure EmbeddingData where
  embeddings : List (List ℚ)
  texts : List String
  metadatas : List (List (String × Json))

/-- JsonSerializer.load_embeddings: raises FileNotFoundError when the
embeddings JSON file is missing, otherwise projects the items into the
three parallel lists. -/
def load_embeddings (st : List (String × EmbeddingFileData))
    (document_id : String) : Except String EmbeddingData :=
  match st.lookup document_id with
  | none => .error ("Arquivo de embeddings nao encontrado: " ++ document_id)
  | some data =>
    .ok ⟨data.items.map (fun i => i.embedding),
         data.items.map (fun i => i.text),
         data.items.map (fun i => i.metadata)⟩

/-- Modelled from the spec: the parts of the environment that live outside
this repository.  sha256hex is hashlib sha256 hexdigest; fileExists is
os.path.exists; processTxt, processHtm and processPdf are the composites
DocumentProcessor.process_txt / process_htm / process_pdf build out of the
langchain loaders and the recursive character splitter (each may raise);
embedDocs is OpenAIEmbeddings.embed_documents, which may raise. -/
structure Env where
  sha256hex : String → String
  fileExists : String → Bool
  processTxt : String → Except String (List Document)
  processHtm : String → Except String (List Document)
  processPdf : String → Except String (List Document)
  embedDocs : List String → Except String (List (List ℚ))

/-- DocumentProcessor.process_file: raises FileNotFoundError for a missing
file, then dispatches on the lowercased text after the last dot of the
full path; only txt, htm and pdf are dispatched, every other extension
raises ValueError. -/
def process_file (env : Env) (file_path : String) :
    Except String (List Document) :=
  if env.fileExists file_path then
    let extension := strToLower (lastDotComponent file_path)
    if extension = "txt" then env.processTxt file_path
    else if extension = "htm" then env.processHtm file_path
    else if extension = "pdf" then env.processPdf file_path
    else .error ("Formato nao suportado: " ++ extension)
  else .error ("Arquivo nao encontrado: " ++ file_path)

/-- The default extension list of process_directory. -/
def defaultExtensions : List String := ["txt", "html", "htm", "pdf"]

/-- One file yielded by os.walk: the directory it sits in and its name. -/
structure WalkFile where
  root : String
  name : String

/-- os.path.join(root, file) as used in step 1. -/
def walkPath (f : WalkFile) : String := f.root ++ "/" ++ f.name

/-- One entry added to the Chroma collection. -/
structure VectorEntry where
  text : String
  embedding : List ℚ
  metadata : List (String × Json)

/-- VectorStoreManager.add_documents_with_embeddings, with the Chroma
client modelled from the spec as an append-only collection: the texts,
embeddings and metadatas are zipped into entries appended in order. -/
def add_documents_with_embeddings (vs : List VectorEntry)
    (texts : List String) (embeddings : List (List ℚ))
    (metadatas : List (List (String × Json))) : List VectorEntry :=
  vs ++ (texts.zip (embeddings.zip metadatas)).map
    (fun p => ⟨p.1, p.2.1, p.2.2⟩)

/-- Step 1 of process_directory: walk the files in order; for each file
whose lowercased name extension is in the extension list, process it and
save its chunks; a raised exception is caught and the file contributes
nothing; a None document id (empty chunk list) is not counted.  Returns
(processed_files, processed_document_ids, chunk store). -/
def step1 (env : Env) (extensions : List String) :
    List WalkFile → List (String × ChunkFileData) →
    Nat × List String × List (String × ChunkFileData)
  | [], st => (0, [], st)
  | f :: fs, st =>
    if strToLower (lastDotComponent f.name) ∈ extensions then
      match process_file env (walkPath f) with
      | .error _ => step1 env extensions fs st
      | .ok documents =>
        match save_chunks env.sha256hex st documents (walkPath f) with
        | (none, st2) => step1 env extensions fs st2
        | (some document_id, st2) =>
          let rest := step1 env extensions fs st2
          (rest.1 + 1, document_id :: rest.2.1, rest.2.2)
    else step1 env extensions fs st

/-- Step 2 of process_directory: for each document id in order, load its
chunks, embed the chunk texts, and save the embeddings JSON; a raised
exception is caught and the id contributes nothing. -/
def step2 (env : Env) (chunkSt : List (String × ChunkFileData)) :
    List String → List (String × EmbeddingFileData) →
    List (String × EmbeddingFileData)
  | [], embSt => embSt
  | document_id :: ids, embSt =>
    match load_chunks chunkSt document_id with
    | .error _ => step2 env chunkSt ids embSt
    | .ok documents =>
      let texts := documents.map (fun d => d.page_content)
      let metadatas := documents.map (fun d => d.metadata)
      match env.embedDocs texts with
      | .error _ => step2 env chunkSt ids embSt
      | .ok embeddings =>
        step2 env chunkSt ids
          (save_embeddings embSt document_id embeddings texts metadatas).2

/-- Step 3 of process_directory: for each document id in order, load its
embeddings JSON and add its texts, embeddings and metadatas to the vector
store; a raised exception is caught and the id contributes nothing. -/
def step3 (embSt : List (String × EmbeddingFileData)) :
    List String → List VectorEntry → List VectorEntry
  | [], vs => vs
  | document_id :: ids, vs =>
    match load_embeddings embSt document_id with
    | .error _ => step3 embSt ids vs
    | .ok data =>
      step3 embSt ids
        (add_documents_with_embeddings vs data.texts data.embeddings data.metadatas)

/-- The dictionary process_directory returns. -/
structure PipelineResult where
  processed_files : Nat
  document_ids : List String

/-- The persistent state process_directory reads and writes: the chunks
directory, the embeddings directory and the vector store. -/
structure PipelineState where
  chunkFiles : List (String × ChunkFileData)
  embeddingFiles : List (String × EmbeddingFileData)
  vectorEntries : List VectorEntry

/-- process_directory of src/data_processing/main.py: substitutes the
default extension list for an empty (falsy) one, then runs the three
sequential steps, steps 2 and 3 iterating over the document id list that
step 1 produced.  The skip_existing parameter is accepted exactly as in
the source: it is never read. -/
def process_directory (env : Env) (files : List WalkFile)
    (extensions : List String) ( skip_existing : Bool) (st : PipelineState) :
    PipelineResult × PipelineState :=
  let exts := if extensions.isEmpty then defaultExtensions else extensions
  let s1 := step1 env exts files st.chunkFiles
  let embSt := step2 env s1.2.2 s1.2.1 st.embeddingFiles
  let vs := step3 embSt s1.2.1 st.vectorEntries
  (⟨s1.1, s1.2.1⟩, ⟨s1.2.2, embSt, vs⟩)

/-- Sum of squares of a vector, computed exactly. -/
def sumSq (v : List ℚ) : ℚ := (v.map (fun x => x * x)).sum

/-- numpy dot product of two vectors of equal length (numpy raises on a
length mismatch; the zip formulation agrees with it wherever it is
defined). -/
def dotQ (v1 v2 : List ℚ) : ℚ := ((v1.zip v2).map (fun p => p.1 * p.2)).sum

/-- numpy linalg.norm: the Euclidean norm. -/
noncomputable def norm2 (v : List ℚ) : ℝ := Real.sqrt ((sumSq v : ℚ) : ℝ)

/-- cosine_similarity as defined inside query_from_json_files:
np.dot(v1, v2) / (np.linalg.norm(v1) * np.linalg.norm(v2)). -/
noncomputable def cosine_similarity (v1 v2 : List ℚ) : ℝ :=
  ((dotQ v1 v2 : ℚ) : ℝ) / (norm2 v1 * norm2 v2)

/-- One element of the all_results list of query_from_json_files. -/
structure QueryResult where
  text : String
  metadata : List (String × Json)
  similarity : ℝ
  document_id : String

/-- The all_results list of query_from_json_files: one result per item of
each embeddings JSON file, carrying the cosine similarity of the stored
embedding with the query embedding. -/
noncomputable def all_results (query_embedding : List ℚ)
    (files : List (String × EmbeddingFileData)) : List QueryResult :=
  files.flatMap (fun f => f.2.items.map
    (fun item => ⟨item.text, item.metadata,
      cosine_similarity query_embedding item.embedding, f.1⟩))

/-- The comparison Python list.sort with reverse=True performs between
two results keyed by similarity. -/
noncomputable def simGE (a b : QueryResult) : Bool :=
  decide (b.similarity ≤ a.similarity)

/-- query_from_json_files of src/data_processing/query_tool.py, given the
query embedding (the code obtains it from the embeddings API) and the
embeddings directory listing: builds all_results, sorts it by similarity
from highest to lowest (a stable sort, as Python list.sort), and returns
the first k results.  No score threshold is applied anywhere. -/
noncomputable def query_from_json_files (query_embedding : List ℚ)
    (files : List (String × EmbeddingFileData)) (k : Nat) : List QueryResult :=
  ((all_results query_embedding files).mergeSort simGE).take k

/-- Python truthiness of a JSON value. -/
def Json.truthy : Json → Bool
  | .null => false
  | .bool b => b
  | .num q => decide (q ≠ 0)
  | .str s => decide (s ≠ "")
  | .arr items => !items.isEmpty
  | .obj fields => !fields.isEmpty

/-- Whether one string occurs inside another (Python substring test for
the in operator on strings). -/
def strContains (s sub : String) : Bool := decide (1 < (s.splitOn sub).length)

/-- Python membership test key in data, for a string key against an
arbitrary JSON value: substring test on strings, element equality on
arrays, key membership on objects; a TypeError on null, booleans and
numbers. -/
def pyContains (d : Json) (key : String) : Except String Bool :=
  match d with
  | .null => .error "TypeError: argument not iterable"
  | .bool _ => .error "TypeError: argument not iterable"
  | .num _ => .error "TypeError: argument not iterable"
  | .str s => .ok (strContains s key)
  | .arr items => .ok (items.any (fun j =>
      match j with
      | .str s => s == key
      | _ => false))
  | .obj fields => .ok ((fields.lookup key).isSome)

/-- Python subscript data applied to a string key: a key lookup on
objects (KeyError when absent), a TypeError on every other JSON value. -/
def pySubscript (d : Json) (key : String) : Except String Json :=
  match d with
  | .obj fields =>
    match fields.lookup key with
    | some v => .ok v
    | none => .error "KeyError"
  | _ => .error "TypeError: not a dict subscript"

/-- Python dict.get with a default, on an object. -/
def pyGetD (fields : List (String × Json)) (key : String) (default : Json) :
    Json :=
  (fields.lookup key).getD default

/-- A chat message as the endpoint serialises it: content and type. -/
structure ChatMessage where
  content : Json
  type : String

/-- The body of a /chat HTTP response. -/
inductive ChatBody where
  | errorBody (msg : String) : ChatBody
  | success (response : List ChatMessage) (thread_id : Json) : ChatBody
  | frameworkError : ChatBody

/-- The POST /chat endpoint of src/api/app.py, given the parsed request
JSON (none when the body is absent or not JSON) and the conversation
graph invocation (abstract; it receives the message list and returns the
output messages or raises).  Returns the HTTP status and body.  An
exception raised outside the try block (the membership test or the
subscript on a non-dict) propagates to Flask, which answers 500 with its
default error page, modelled as frameworkError. -/
def chat (data : Option Json)
    (invoke : List ChatMessage → Except String (List ChatMessage)) :
    Nat × ChatBody :=
  match data with
  | none => (400, .errorBody "A mensagem e obrigatoria")
  | some d =>
    if d.truthy then
      match pyContains d "message" with
      | .error _ => (500, .frameworkError)
      | .ok false => (400, .errorBody "A mensagem e obrigatoria")
      | .ok true =>
        match pySubscript d "message" with
        | .error _ => (500, .frameworkError)
        | .ok user_message =>
          let thread_id :=
            match d with
            | .obj fields => pyGetD fields "thread_id" (.str "20")
            | _ => .str "20"
          match invoke [⟨user_message, "human"⟩] with
          | .error e =>
            (500, .errorBody ("Erro ao processar sua mensagem: " ++ e))
          | .ok msgs =>
            let response := ⟨user_message, "human"⟩ ::
              (match msgs.getLast? with
               | some m => [⟨m.content, m.type⟩]
               | none => [])
            (200, .success response thread_id)
    else (400, .errorBody "A mensagem e obrigatoria")

/-! ### Helper lemmas shared by several claims -/

/-- A file for which process_file raises, or yields an empty chunk list,
contributes nothing in step 1: neither the count, nor the id list, nor
the chunk store changes on its account. -/
theorem step1_cons_skip (env : Env) (extensions : List String) (f : WalkFile)
    (fs : List WalkFile) (st : List (String × ChunkFileData))
    (h : ∀ documents, process_file env (walkPath f) = .ok documents →
      documents = []) :
    step1 env extensions (f :: fs) st = step1 env extensions fs st := by
  simp only [step1]
  by_cases hext : strToLower (lastDotComponent f.name) ∈ extensions
  · rw [if_pos hext]
    cases hpf : process_file env (walkPath f) with
    | error e => rfl
    | ok documents =>
      have hnil := h documents hpf
      subst hnil
      rfl
  · rw [if_neg hext]

/-- Middle-of-the-walk version of step1_cons_skip. -/
theorem step1_append_skip (env : Env) (extensions : List String) (f : WalkFile)
    (h : ∀ documents, process_file env (walkPath f) = .ok documents →
      documents = []) :
    ∀ (xs ys : List WalkFile) (st : List (String × ChunkFileData)),
    step1 env extensions (xs ++ f :: ys) st = step1 env extensions (xs ++ ys) st := by
  intro xs
  induction xs with
  | nil =>
    intro ys st
    exact step1_cons_skip env extensions f ys st h
  | cons g gs ih =>
    intro ys st
    simp only [List.cons_append, step1]
    by_cases hext : strToLower (lastDotComponent g.name) ∈ extensions
    · rw [if_pos hext, if_pos hext]
      cases hpf : process_file env (walkPath g) with
      | error e => exact ih ys st
      | ok documents =>
        cases documents with
        | nil => exact ih ys st
        | cons d ds =>
          simp only [save_chunks, List.append_eq]
          rw [ih]
    · rw [if_neg hext, if_neg hext]
      exact ih ys st

/-- Whether the step 2 body raises for a given document id: either the
chunks JSON is missing or the embeddings API call fails. -/
def step2Raises (env : Env) (chunkSt : List (String × ChunkFileData))
    (document_id : String) : Bool :=
  match load_chunks chunkSt document_id with
  | .error _ => true
  | .ok documents =>
    match env.embedDocs (documents.map (fun d => d.page_content)) with
    | .error _ => true
    | .ok _ => false

/-- Whether the step 3 body raises for a given document id: the
embeddings JSON is missing. -/
def step3Raises (embSt : List (String × EmbeddingFileData))
    (document_id : String) : Bool :=
  match load_embeddings embSt document_id with
  | .error _ => true
  | .ok _ => false

/-- An id whose step 2 body raises contributes nothing in step 2. -/
theorem step2_append_skip (env : Env) (chunkSt : List (String × ChunkFileData))
    (document_id : String) (h : step2Raises env chunkSt document_id = true) :
    ∀ (xs ys : List String) (embSt : List (String × EmbeddingFileData)),
    step2 env chunkSt (xs ++ document_id :: ys) embSt
      = step2 env chunkSt (xs ++ ys) embSt := by
  intro xs
  induction xs with
  | nil =>
    intro ys embSt
    unfold step2Raises at h
    simp only [List.nil_append, step2]
    cases hl : load_chunks chunkSt document_id with
    | error e => rfl
    | ok documents =>
      simp only [hl] at h
      cases he : env.embedDocs (documents.map (fun d => d.page_content)) with
      | error e => simp only [he]
      | ok embeddings =>
        simp only [he] at h
        exact absurd h (by decide)
  | cons i is ih =>
    intro ys embSt
    simp only [List.cons_append, step2]
    cases hl : load_chunks chunkSt i with
    | error e => exact ih ys embSt
    | ok documents =>
      dsimp only
      cases he : env.embedDocs (documents.map (fun d => d.page_content)) with
      | error e => exact ih ys embSt
      | ok embeddings => exact ih ys _

/-- An id whose step 3 body raises contributes nothing in step 3. -/
theorem step3_append_skip (embSt : List (String × EmbeddingFileData))
    (document_id : String) (h : step3Raises embSt document_id = true) :
    ∀ (xs ys : List String) (vs : List VectorEntry),
    step3 embSt (xs ++ document_id :: ys) vs = step3 embSt (xs ++ ys) vs := by
  intro xs
  induction xs with
  | nil =>
    intro ys vs
    unfold step3Raises at h
    simp only [List.nil_append, step3]
    cases hl : load_embeddings embSt document_id with
    | error e => rfl
    | ok data => rw [hl] at h; simp at h
  | cons i is ih =>
    intro ys vs
    simp only [List.cons_append, step3]
    cases hl : load_embeddings embSt i with
    | error e => exact ih ys vs
    | ok data => exact ih ys _

/-! ### C6: chunk persistence round-trips losslessly -/

/-- C6: for every non-empty document list and file path, load_chunks at
the id returned by save_chunks gives back exactly the saved documents
(same length, same order, page_content and metadata preserved: a Document
consists of precisely those two fields). -/
theorem save_load_chunks_roundtrip (sha256hex : String → String)
    (st : List (String × ChunkFileData)) (documents : List Document)
    (file_path : String) (h : documents ≠ []) :
    ∃ document_id,
      (save_chunks sha256hex st documents file_path).1 = some document_id
      ∧ load_chunks (save_chunks sha256hex st documents file_path).2 document_id
          = .ok documents := by
  match documents, h with
  | d :: ds, _ =>
    refine ⟨generate_document_id file_path (sha256hex d.page_content), rfl, ?_⟩
    simp [save_chunks, load_chunks]

/-- Witness for C6 at a concrete input. -/
theorem save_load_chunks_roundtrip_witness :
    (save_chunks (fun _ => "0123456789abcdef") []
      [⟨"hello world", []⟩] "data/a.txt").1 = some "a_01234567"
    ∧ load_chunks (save_chunks (fun _ => "0123456789abcdef") []
        [⟨"hello world", []⟩] "data/a.txt").2 "a_01234567"
        = .ok [⟨"hello world", []⟩] := by
  obtain ⟨document_id, h1, h2⟩ := save_load_chunks_roundtrip
    (fun _ => "0123456789abcdef") [] [⟨"hello world", []⟩] "data/a.txt"
    (by simp)
  have hid : document_id = "a_01234567" := by
    have h3 : some document_id = some "a_01234567" := by
      rw [← h1]
      rfl
    exact Option.some.inj h3
  subst hid
  exact ⟨h1, h2⟩

/-! ### C3: per-item failures are caught and skipped -/

/-- C3: in each of the three steps a per-item failure is caught and
iteration continues: a file whose processing raises contributes neither
to the processed_files count nor to the document id list nor to the
chunk store; an id whose step 2 or step 3 body raises leaves the
corresponding store unchanged; and process_directory returns the same
value with the failing file present or absent, so no per-item exception
propagates out of it. -/
theorem per_item_failure_caught (env : Env) (f : WalkFile) (msg : String)
    (id2 id3 : String) (chunkSt : List (String × ChunkFileData))
    (embSt : List (String × EmbeddingFileData))
    (h1 : process_file env (walkPath f) = .error msg)
    (h2 : step2Raises env chunkSt id2 = true)
    (h3 : step3Raises embSt id3 = true) :
    (∀ (extensions : List String) (xs ys : List WalkFile)
        (st : List (String × ChunkFileData)),
      step1 env extensions (xs ++ f :: ys) st = step1 env extensions (xs ++ ys) st)
    ∧ (∀ (xs ys : List String) (st : List (String × EmbeddingFileData)),
      step2 env chunkSt (xs ++ id2 :: ys) st = step2 env chunkSt (xs ++ ys) st)
    ∧ (∀ (xs ys : List String) (vs : List VectorEntry),
      step3 embSt (xs ++ id3 :: ys) vs = step3 embSt (xs ++ ys) vs)
    ∧ (∀ (extensions : List String) (xs ys : List WalkFile) (sk : Bool)
        (st : PipelineState),
      process_directory env (xs ++ f :: ys) extensions sk st
        = process_directory env (xs ++ ys) extensions sk st) := by
  have hskip : ∀ documents,
      process_file env (walkPath f) = .ok documents → documents = [] := by
    intro documents hdocs
    rw [h1] at hdocs
    exact absurd hdocs (by simp)
  refine ⟨?_, ?_, ?_, ?_⟩
  · intro extensions xs ys st
    exact step1_append_skip env extensions f hskip xs ys st
  · intro xs ys st
    exact step2_append_skip env chunkSt id2 h2 xs ys st
  · intro xs ys vs
    exact step3_append_skip embSt id3 h3 xs ys vs
  · intro extensions xs ys sk st
    simp only [process_directory]
    rw [step1_append_skip env _ f hskip xs ys st.chunkFiles]

/-- A concrete environment where every file system and API call fails. -/
def envAllFail : Env :=
  ⟨fun _ => "0123456789abcdef", fun _ => false,
   fun p => .error p, fun p => .error p, fun p => .error p,
   fun _ => .error "api"⟩

/-- Witness for C3 at a concrete input. -/
theorem per_item_failure_caught_witness :
    step1 envAllFail ["txt"] [⟨"data", "a.txt"⟩] []
      = step1 envAllFail ["txt"] [] []
    ∧ step2 envAllFail [] ["someid"] [] = step2 envAllFail [] [] []
    ∧ step3 [] ["someid"] [] = step3 [] [] []
    ∧ process_directory envAllFail [⟨"data", "a.txt"⟩] [] true ⟨[], [], []⟩
        = process_directory envAllFail [] [] true ⟨[], [], []⟩ := by
  have h := per_item_failure_caught envAllFail ⟨"data", "a.txt"⟩
    "Arquivo nao encontrado: data/a.txt" "someid" "someid" [] [] rfl rfl rfl
  exact ⟨h.1 ["txt"] [] [] [], h.2.1 [] [] [], h.2.2.1 [] [] [],
    h.2.2.2 [] [] [] true ⟨[], [], []⟩⟩

/-! ### C2: html files are declared processable but rejected -/

/-- C2 fails on the code: process_file dispatches only txt, htm and pdf,
so a file with the html extension raises ValueError even when it exists,
although process_directory includes html in its default extension list. -/
theorem html_file_rejected (env : Env)
    (h : env.fileExists "data/doc.html" = true) :
    process_file env "data/doc.html" = .error "Formato nao suportado: html"
    ∧ "html" ∈ defaultExtensions := by
  constructor
  · unfold process_file
    rw [h]
    rfl
  · decide

/-- A concrete environment where every file exists and every loader
returns an empty chunk list. -/
def envAllExist : Env :=
  ⟨fun _ => "0123456789abcdef", fun _ => true,
   fun _ => .ok [], fun _ => .ok [], fun _ => .ok [], fun _ => .ok []⟩

/-- Witness for C2 at a concrete input. -/
theorem html_file_rejected_witness :
    process_file envAllExist "data/doc.html"
      = .error "Formato nao suportado: html"
    ∧ "html" ∈ defaultExtensions :=
  html_file_rejected envAllExist rfl

/-! ### C7: skip_existing never skips anything -/

/-- A concrete environment where data/a.txt exists, loads as one chunk,
and the embeddings API succeeds. -/
def envHappy : Env :=
  ⟨fun _ => "0123456789abcdef", fun _ => true,
   fun _ => .ok [⟨"hello", []⟩], fun p => .error p, fun p => .error p,
   fun ts => .ok (ts.map (fun _ => [1]))⟩

/-- The state left by a previous run that already processed data/a.txt:
its chunks JSON, its embeddings JSON and its vector entry all exist. -/
def preprocessedState : PipelineState :=
  ⟨[("a_01234567", ⟨"a_01234567", "data/a.txt", 1, [⟨"hello", []⟩]⟩)],
   [("a_01234567", ⟨"a_01234567", 1, 1, [⟨"hello", [], [1]⟩]⟩)],
   [⟨"hello", [1], []⟩]⟩

/-- C7 fails on the code: the skip_existing parameter is never read, so
process_directory behaves identically with it true or false, and a file
whose chunks JSON already exists from a previous run is re-chunked (the
chunk store gains a second entry under the same id), re-counted, and its
entries re-added to the vector store. -/
theorem skip_existing_never_skips :
    (∀ (env : Env) (files : List WalkFile) (extensions : List String)
       (st : PipelineState),
      process_directory env files extensions true st
        = process_directory env files extensions false st)
    ∧ (process_directory envHappy [⟨"data", "a.txt"⟩] [] true
        preprocessedState).1.processed_files = 1
    ∧ (process_directory envHappy [⟨"data", "a.txt"⟩] [] true
        preprocessedState).1.document_ids = ["a_01234567"]
    ∧ ((process_directory envHappy [⟨"data", "a.txt"⟩] [] true
        preprocessedState).2.chunkFiles.map (fun e => e.1))
        = ["a_01234567", "a_01234567"]
    ∧ (process_directory envHappy [⟨"data", "a.txt"⟩] [] true
        preprocessedState).2.vectorEntries.length = 2 := by
  exact ⟨fun env files extensions st => rfl, rfl, rfl, rfl, rfl⟩

/-! ### C9: None on empty chunk lists, id format, counting -/

/-- C9: save_chunks returns None and leaves the store untouched on an
empty document list; on a non-empty list it returns the id built from the
stem of the file base name and the first 8 hex characters of the content
hash of the first chunk; and step 1 neither counts a file nor records an
id when save_chunks returns None (here: processing yielded no chunks). -/
theorem save_chunks_none_and_id (sha256hex : String → String)
    (st : List (String × ChunkFileData)) (file_path : String)
    (d : Document) (ds : List Document) (env : Env) (f : WalkFile)
    (hempty : process_file env (walkPath f) = .ok []) :
    save_chunks sha256hex st [] file_path = (none, st)
    ∧ (save_chunks sha256hex st (d :: ds) file_path).1
        = some (firstDotComponent (basename file_path) ++ "_"
            ++ strTake (sha256hex d.page_content) 8)
    ∧ (∀ (extensions : List String) (xs ys : List WalkFile)
        (st1 : List (String × ChunkFileData)),
      step1 env extensions (xs ++ f :: ys) st1
        = step1 env extensions (xs ++ ys) st1) := by
  refine ⟨rfl, rfl, ?_⟩
  intro extensions xs ys st1
  refine step1_append_skip env extensions f ?_ xs ys st1
  intro documents hdocs
  rw [hempty] at hdocs
  exact (Except.ok.inj hdocs).symm

/-- Witness for C9 at a concrete input. -/
theorem save_chunks_none_and_id_witness :
    save_chunks (fun _ => "0123456789abcdef") [] [] "data/a.txt" = (none, [])
    ∧ (save_chunks (fun _ => "0123456789abcdef") []
        [⟨"hello", []⟩] "data/a.txt").1 = some "a_01234567"
    ∧ step1 envAllExist ["txt"] [⟨"data", "a.txt"⟩] []
        = step1 envAllExist ["txt"] [] [] := by
  have h := save_chunks_none_and_id (fun _ => "0123456789abcdef") []
    "data/a.txt" ⟨"hello", []⟩ [] envAllExist ⟨"data", "a.txt"⟩ rfl
  exact ⟨h.1, h.2.1, h.2.2 ["txt"] [] [] []⟩

/-! ### C4: the pipeline is three sequential stages over one id list -/

/-- The id step 1 records for a single walked file, when it records one:
the extension filter passes, processing succeeds, and the chunk list is
non-empty. -/
def chunkIdOf (env : Env) (extensions : List String) (f : WalkFile) :
    Option String :=
  if strToLower (lastDotComponent f.name) ∈ extensions then
    match process_file env (walkPath f) with
    | .ok (d :: _) =>
      some (generate_document_id (walkPath f) (env.sha256hex d.page_content))
    | _ => none
  else none

/-- Step 1 records exactly the ids of the files that pass the extension
filter, process successfully and yield at least one chunk, in walk order,
and its count is the length of that list. -/
theorem step1_ids_count (env : Env) (extensions : List String) :
    ∀ (files : List WalkFile) (st : List (String × ChunkFileData)),
    (step1 env extensions files st).2.1
        = files.filterMap (chunkIdOf env extensions)
    ∧ (step1 env extensions files st).1
        = (files.filterMap (chunkIdOf env extensions)).length := by
  intro files
  induction files with
  | nil => intro st; exact ⟨rfl, rfl⟩
  | cons f fs ih =>
    intro st
    simp only [step1, List.filterMap_cons, chunkIdOf]
    by_cases hext : strToLower (lastDotComponent f.name) ∈ extensions
    · rw [if_pos hext, if_pos hext]
      cases hpf : process_file env (walkPath f) with
      | error e => exact ih st
      | ok documents =>
        cases documents with
        | nil => exact ih st
        | cons d ds =>
          simp only [save_chunks]
          refine ⟨?_, ?_⟩
          · simp only [(ih _).1]
          · simp only [(ih _).2, List.length_cons]
    · rw [if_neg hext, if_neg hext]
      exact ih st

/-- Writing only prepends entries, so a key present in the chunk store
stays present through step 1. -/
theorem step1_store_mono (env : Env) (extensions : List String) :
    ∀ (files : List WalkFile) (st : List (String × ChunkFileData))
      (k : String), (st.lookup k).isSome = true →
    (((step1 env extensions files st).2.2).lookup k).isSome = true := by
  intro files
  induction files with
  | nil => intro st k hk; exact hk
  | cons f fs ih =>
    intro st k hk
    simp only [step1]
    by_cases hext : strToLower (lastDotComponent f.name) ∈ extensions
    · rw [if_pos hext]
      cases hpf : process_file env (walkPath f) with
      | error e => exact ih st k hk
      | ok documents =>
        cases documents with
        | nil => exact ih st k hk
        | cons d ds =>
          simp only [save_chunks]
          apply ih
          rw [List.lookup_cons]
          cases hbeq : k == generate_document_id (walkPath f)
              (env.sha256hex d.page_content) with
          | true => rfl
          | false => exact hk
    · rw [if_neg hext]
      exact ih st k hk

/-- Every id step 1 returns has its chunks JSON present in the final
chunk store. -/
theorem step1_ids_saved (env : Env) (extensions : List String) :
    ∀ (files : List WalkFile) (st : List (String × ChunkFileData))
      (id : String), id ∈ (step1 env extensions files st).2.1 →
    (((step1 env extensions files st).2.2).lookup id).isSome = true := by
  intro files
  induction files with
  | nil =>
    intro st id hid
    exact absurd hid (by simp [step1])
  | cons f fs ih =>
    intro st id
    simp only [step1]
    by_cases hext : strToLower (lastDotComponent f.name) ∈ extensions
    · rw [if_pos hext]
      cases hpf : process_file env (walkPath f) with
      | error e => exact ih st id
      | ok documents =>
        cases documents with
        | nil => exact ih st id
        | cons d ds =>
          simp only [save_chunks]
          intro hid
          rcases List.mem_cons.mp hid with h | h
          · subst h
            apply step1_store_mono
            rw [List.lookup_cons]
            simp
          · exact ih _ id h
    · rw [if_neg hext]
      exact ih st id

/-- C4: process_directory is the sequential composition of the three
steps, stages 2 and 3 iterating over exactly the document id list that
stage 1 produced, in the same order (stage 2 reading the stage-1 chunk
store and writing the embeddings store, stage 3 reading the embeddings
store stage 2 produced and extending the vector store); the id list and
count are characterised file-by-file; and every recorded id has its
chunks JSON present in the final chunk store. -/
theorem pipeline_three_stages (env : Env) (files : List WalkFile)
    (extensions : List String) (sk : Bool) (st : PipelineState) :
    (process_directory env files extensions sk st
      = let exts := if extensions.isEmpty then defaultExtensions
          else extensions
        let s1 := step1 env exts files st.chunkFiles
        let embSt := step2 env s1.2.2 s1.2.1 st.embeddingFiles
        (⟨s1.1, s1.2.1⟩, ⟨s1.2.2, embSt, step3 embSt s1.2.1 st.vectorEntries⟩))
    ∧ (process_directory env files extensions sk st).1.document_ids
        = files.filterMap (chunkIdOf env
            (if extensions.isEmpty then defaultExtensions else extensions))
    ∧ (process_directory env files extensions sk st).1.processed_files
        = (files.filterMap (chunkIdOf env
            (if extensions.isEmpty then defaultExtensions else extensions))).length
    ∧ (∀ id ∈ (process_directory env files extensions sk st).1.document_ids,
        (((process_directory env files extensions sk st).2.chunkFiles).lookup
          id).isSome = true) := by
  refine ⟨rfl, ?_, ?_, ?_⟩
  · exact (step1_ids_count env _ files st.chunkFiles).1
  · exact (step1_ids_count env _ files st.chunkFiles).2
  · intro id hid
    exact step1_ids_saved env _ files st.chunkFiles id hid

/-! ### C8: embedding persistence truncates stored texts -/

/-- First projection of a two-level zip. -/
theorem map_p1_zip3 {α β γ : Type} (as : List α) (bs : List β) (cs : List γ)
    (hb : as.length ≤ bs.length) (hc : as.length ≤ cs.length) :
    (as.zip (bs.zip cs)).map (fun p => p.1) = as := by
  have h1 : (as.zip (bs.zip cs)).map (fun p => p.1)
      = (as.zip (bs.zip cs)).map Prod.fst := rfl
  rw [h1, List.map_fst_zip as (bs.zip cs)]
  rw [List.length_zip]
  omega

/-- Middle projection of a two-level zip. -/
theorem map_p2_zip3 {α β γ : Type} (as : List α) (bs : List β) (cs : List γ)
    (ha : bs.length ≤ as.length) (hc : bs.length ≤ cs.length) :
    (as.zip (bs.zip cs)).map (fun p => p.2.1) = bs := by
  have h1 : (as.zip (bs.zip cs)).map (fun p => p.2.1)
      = ((as.zip (bs.zip cs)).map Prod.snd).map Prod.fst := by
    rw [List.map_map]
    rfl
  rw [h1, List.map_snd_zip as (bs.zip cs) (by rw [List.length_zip]; omega),
    List.map_fst_zip bs cs hc]

/-- Last projection of a two-level zip. -/
theorem map_p3_zip3 {α β γ : Type} (as : List α) (bs : List β) (cs : List γ)
    (ha : cs.length ≤ as.length) (hb : cs.length ≤ bs.length) :
    (as.zip (bs.zip cs)).map (fun p => p.2.2) = cs := by
  have h1 : (as.zip (bs.zip cs)).map (fun p => p.2.2)
      = ((as.zip (bs.zip cs)).map Prod.snd).map Prod.snd := by
    rw [List.map_map]
    rfl
  rw [h1, List.map_snd_zip as (bs.zip cs) (by rw [List.length_zip]; omega),
    List.map_snd_zip bs cs hb]

/-- Loading right after saving returns the truncated texts together with
the unchanged embeddings and metadatas. -/
theorem load_save_embeddings (embSt : List (String × EmbeddingFileData))
    (document_id : String) (embeddings : List (List ℚ)) (texts : List String)
    (metadatas : List (List (String × Json)))
    (hm : metadatas.length = texts.length)
    (he : embeddings.length = texts.length) :
    load_embeddings (save_embeddings embSt document_id embeddings texts
      metadatas).2 document_id
      = .ok ⟨embeddings, texts.map truncateText, metadatas⟩ := by
  unfold save_embeddings load_embeddings
  simp only [List.lookup_cons_self]
  have h1 : ((texts.zip (metadatas.zip embeddings)).map
      (fun p => (⟨truncateText p.1, p.2.1, p.2.2⟩ : EmbeddingItem))).map
        (fun i => i.embedding)
      = (texts.zip (metadatas.zip embeddings)).map (fun p => p.2.2) := by
    rw [List.map_map]
    rfl
  have h2 : ((texts.zip (metadatas.zip embeddings)).map
      (fun p => (⟨truncateText p.1, p.2.1, p.2.2⟩ : EmbeddingItem))).map
        (fun i => i.text)
      = ((texts.zip (metadatas.zip embeddings)).map (fun p => p.1)).map
          truncateText := by
    rw [List.map_map, List.map_map]
    rfl
  have h3 : ((texts.zip (metadatas.zip embeddings)).map
      (fun p => (⟨truncateText p.1, p.2.1, p.2.2⟩ : EmbeddingItem))).map
        (fun i => i.metadata)
      = (texts.zip (metadatas.zip embeddings)).map (fun p => p.2.1) := by
    rw [List.map_map]
    rfl
  rw [h1, h2, h3, map_p1_zip3 texts metadatas embeddings (by omega) (by omega),
    map_p2_zip3 texts metadatas embeddings (by omega) (by omega),
    map_p3_zip3 texts metadatas embeddings (by omega) (by omega)]

/-- C8: save_embeddings stores for every text its first 200 characters
with an ellipsis appended when it was longer; load_embeddings returns
these truncated texts; consequently, running the pipeline over a file
puts the truncated chunk texts, not the full ones, into the vector
store. -/
theorem embedding_texts_truncated
    (t : String) (ht : 200 < t.length)
    (embSt : List (String × EmbeddingFileData)) (document_id : String)
    (embeddings : List (List ℚ)) (texts : List String)
    (metadatas : List (List (String × Json)))
    (hm : metadatas.length = texts.length)
    (he : embeddings.length = texts.length)
    (env : Env) (f : WalkFile) (docs : List Document) (embs : List (List ℚ))
    (hext : strToLower (lastDotComponent f.name) ∈ defaultExtensions)
    (hpf : process_file env (walkPath f) = .ok docs)
    (hne : docs ≠ [])
    (hemb : env.embedDocs (docs.map (fun d => d.page_content)) = .ok embs)
    (hlen : embs.length = docs.length) :
    truncateText t = strTake t 200 ++ "..."
    ∧ load_embeddings (save_embeddings embSt document_id embeddings texts
        metadatas).2 document_id
        = .ok ⟨embeddings, texts.map truncateText, metadatas⟩
    ∧ ((process_directory env [f] [] true ⟨[], [], []⟩).2.vectorEntries.map
        (fun e => e.text)) = docs.map (fun d => truncateText d.page_content) := by
  refine ⟨by rw [truncateText, if_pos ht], load_save_embeddings _ _ _ _ _ hm he, ?_⟩
  obtain ⟨d, ds, rfl⟩ : ∃ d ds, docs = d :: ds := by
    cases docs with
    | nil => exact absurd rfl hne
    | cons d ds => exact ⟨d, ds, rfl⟩
  have hs1 : step1 env defaultExtensions [f] []
      = (1, [generate_document_id (walkPath f) (env.sha256hex d.page_content)],
         [(generate_document_id (walkPath f) (env.sha256hex d.page_content),
           ⟨generate_document_id (walkPath f) (env.sha256hex d.page_content),
            walkPath f, (d :: ds).length, d :: ds⟩)]) := by
    simp only [step1]
    rw [if_pos hext, hpf]
    rfl
  have hs2 : step2 env
      [(generate_document_id (walkPath f) (env.sha256hex d.page_content),
        ⟨generate_document_id (walkPath f) (env.sha256hex d.page_content),
         walkPath f, (d :: ds).length, d :: ds⟩)]
      [generate_document_id (walkPath f) (env.sha256hex d.page_content)] []
      = (save_embeddings [] (generate_document_id (walkPath f)
          (env.sha256hex d.page_content)) embs
          ((d :: ds).map (fun x => x.page_content))
          ((d :: ds).map (fun x => x.metadata))).2 := by
    simp only [step2, load_chunks, List.lookup_cons_self]
    rw [hemb]
  have hlk : load_embeddings (save_embeddings []
      (generate_document_id (walkPath f) (env.sha256hex d.page_content)) embs
      ((d :: ds).map (fun x => x.page_content))
      ((d :: ds).map (fun x => x.metadata))).2
      (generate_document_id (walkPath f) (env.sha256hex d.page_content))
      = .ok ⟨embs, ((d :: ds).map (fun x => x.page_content)).map truncateText,
             (d :: ds).map (fun x => x.metadata)⟩ := by
    refine load_save_embeddings _ _ _ _ _ ?_ ?_
    · simp
    · simp only [List.length_map]
      exact hlen
  have hs3 : step3 (save_embeddings []
      (generate_document_id (walkPath f) (env.sha256hex d.page_content)) embs
      ((d :: ds).map (fun x => x.page_content))
      ((d :: ds).map (fun x => x.metadata))).2
      [generate_document_id (walkPath f) (env.sha256hex d.page_content)] []
      = add_documents_with_embeddings []
          (((d :: ds).map (fun x => x.page_content)).map truncateText) embs
          ((d :: ds).map (fun x => x.metadata)) := by
    simp only [step3]
    rw [hlk]
  have hcomp : ∀ (l : List (String × List ℚ × List (String × Json))),
      ((l.map (fun p => (⟨p.1, p.2.1, p.2.2⟩ : VectorEntry))).map
        (fun e => e.text)) = l.map (fun p => p.1) := by
    intro l
    rw [List.map_map]
    rfl
  simp only [process_directory, List.isEmpty_nil, if_pos, hs1]
  rw [hs2, hs3]
  unfold add_documents_with_embeddings
  simp only [List.nil_append]
  rw [hcomp, map_p1_zip3 _ embs ((d :: ds).map (fun x => x.metadata))
    (by simp [hlen]) (by simp), List.map_map]
  rfl

set_option maxRecDepth 4000 in
/-- Witness for C8 at a concrete input (a 201-character text). -/
theorem embedding_texts_truncated_witness :
    truncateText ⟨List.replicate 201 'a'⟩
      = strTake ⟨List.replicate 201 'a'⟩ 200 ++ "..."
    ∧ load_embeddings (save_embeddings [] "doc" [[1]] ["hello"] [[]]).2 "doc"
        = .ok ⟨[[1]], ["hello"].map truncateText, [[]]⟩
    ∧ ((process_directory envHappy [⟨"data", "a.txt"⟩] [] true
        ⟨[], [], []⟩).2.vectorEntries.map (fun e => e.text))
        = [(⟨"hello", []⟩ : Document)].map
            (fun d => truncateText d.page_content) :=
  embedding_texts_truncated ⟨List.replicate 201 'a'⟩ (by decide) [] "doc"
    [[1]] ["hello"] [[]] rfl rfl envHappy ⟨"data", "a.txt"⟩ [⟨"hello", []⟩]
    [[1]] (by decide) rfl (by simp) rfl rfl

/-! ### C5: top-k retrieval, sorted by cosine similarity -/

/-- The comparison of the descending sort is transitive. -/
theorem simGE_trans (a b c : QueryResult) (hab : simGE a b) (hbc : simGE b c) :
    simGE a c := by
  simp only [simGE, decide_eq_true_eq] at hab hbc ⊢
  exact le_trans hbc hab

/-- The comparison of the descending sort is total. -/
theorem simGE_total (a b : QueryResult) : simGE a b || simGE b a := by
  simp only [simGE, Bool.or_eq_true, decide_eq_true_eq]
  exact le_total b.similarity a.similarity

/-- The sorted all_results list is pairwise non-increasing in
similarity. -/
theorem mergeSort_simGE_pairwise (l : List QueryResult) :
    (l.mergeSort simGE).Pairwise (fun a b => b.similarity ≤ a.similarity) := by
  have h := @List.sorted_mergeSort QueryResult simGE
    (fun a b c hab hbc => simGE_trans a b c hab hbc)
    (fun a b => simGE_total a b) l
  exact h.imp (fun hab => by simpa [simGE, decide_eq_true_eq] using hab)

/-- C5: query_from_json_files returns at most k results, pairwise sorted
in non-increasing similarity order; every returned result is one of the
stored items carrying the cosine similarity of its embedding with the
query embedding; and the stored candidates split into the returned
results plus a rest whose similarities do not exceed any returned
similarity. -/
theorem query_topk_sorted (query_embedding : List ℚ)
    (files : List (String × EmbeddingFileData)) (k : Nat) :
    (query_from_json_files query_embedding files k).length ≤ k
    ∧ (query_from_json_files query_embedding files k).Pairwise
        (fun a b => b.similarity ≤ a.similarity)
    ∧ (∀ r ∈ query_from_json_files query_embedding files k,
        ∃ document_id fd item, (document_id, fd) ∈ files ∧ item ∈ fd.items
          ∧ r = ⟨item.text, item.metadata,
              cosine_similarity query_embedding item.embedding, document_id⟩)
    ∧ ∃ rest, (all_results query_embedding files).Perm
          (query_from_json_files query_embedding files k ++ rest)
        ∧ ∀ x ∈ query_from_json_files query_embedding files k,
          ∀ y ∈ rest, y.similarity ≤ x.similarity := by
  refine ⟨?_, ?_, ?_, ?_⟩
  · unfold query_from_json_files
    rw [List.length_take]
    exact min_le_left _ _
  · unfold query_from_json_files
    exact (mergeSort_simGE_pairwise _).sublist (List.take_sublist _ _)
  · intro r hr
    unfold query_from_json_files at hr
    have hmem : r ∈ all_results query_embedding files :=
      List.mem_mergeSort.mp (List.mem_of_mem_take hr)
    unfold all_results at hmem
    rcases List.mem_flatMap.mp hmem with ⟨fd, hfd, hrm⟩
    rcases List.mem_map.mp hrm with ⟨item, hitem, hmk⟩
    exact ⟨fd.1, fd.2, item, hfd, hitem, hmk.symm⟩
  · refine ⟨((all_results query_embedding files).mergeSort simGE).drop k,
      ?_, ?_⟩
    · have hperm := (List.mergeSort_perm (all_results query_embedding files)
        simGE).symm
      rw [← List.take_append_drop k
        ((all_results query_embedding files).mergeSort simGE)] at hperm
      exact hperm
    · intro x hx y hy
      unfold query_from_json_files at hx
      have h := (mergeSort_simGE_pairwise
        (all_results query_embedding files)).rel_of_mem_take_of_mem_drop hx hy
      exact h

/-! ### C1: there is no score threshold -/

/-- The cosine similarity of opposite unit vectors is -1, the lowest
value a cosine similarity can take. -/
theorem cosine_opposite_unit : cosine_similarity [1, 0] [-1, 0] = -1 := by
  have h1 : sumSq [1, 0] = 1 := by norm_num [sumSq]
  have h2 : sumSq [-1, 0] = 1 := by norm_num [sumSq]
  have h3 : dotQ [1, 0] [-1, 0] = -1 := by norm_num [dotQ]
  unfold cosine_similarity norm2
  rw [h1, h2, h3]
  push_cast
  rw [Real.sqrt_one]
  norm_num

/-- C1 as stated: some non-vacuous threshold (a cosine similarity is
never below -1, so a threshold at -1 excludes nothing) bounds from below
the similarity of every result the retrieval returns. -/
def ClaimC1 : Prop := ∃ t : ℝ, -1 < t ∧
  ∀ (query_embedding : List ℚ) (files : List (String × EmbeddingFileData))
    (k : Nat), ∀ r ∈ query_from_json_files query_embedding files k,
    t ≤ r.similarity

/-- C1 is false on the code: a stored embedding exactly opposite to the
query embedding, with similarity -1, is still returned, so no threshold
above -1 is applied. -/
theorem no_threshold_counterexample : ¬ ClaimC1 := by
  rintro ⟨t, ht, h⟩
  have hmem : (⟨"t", [], cosine_similarity [1, 0] [-1, 0], "doc"⟩ : QueryResult)
      ∈ query_from_json_files [1, 0]
        [("doc", ⟨"doc", 1, 2, [⟨"t", [], [-1, 0]⟩]⟩)] 1 := by
    unfold query_from_json_files all_results
    simp
  have hle := h [1, 0] [("doc", ⟨"doc", 1, 2, [⟨"t", [], [-1, 0]⟩]⟩)] 1 _ hmem
  have hle2 : t ≤ -1 := by simpa [cosine_opposite_unit] using hle
  linarith

/-- C1 amended: no score threshold is applied anywhere — whenever k is
at least the number of stored candidates, the retrieval returns every
candidate (a permutation of all_results), however low its similarity. -/
theorem no_threshold_all_returned (query_embedding : List ℚ)
    (files : List (String × EmbeddingFileData)) (k : Nat)
    (h : (all_results query_embedding files).length ≤ k) :
    (query_from_json_files query_embedding files k).Perm
      (all_results query_embedding files) := by
  unfold query_from_json_files
  rw [List.take_of_length_le (by rw [List.length_mergeSort]; exact h)]
  exact List.mergeSort_perm _ _

/-- Witness for the amended C1 at a concrete input: with one stored
embedding opposite to the query and k = 5, the candidate of similarity
-1 is returned. -/
theorem no_threshold_all_returned_witness :
    (query_from_json_files [1, 0]
      [("doc", ⟨"doc", 1, 2, [⟨"t", [], [-1, 0]⟩]⟩)] 5).Perm
      (all_results [1, 0] [("doc", ⟨"doc", 1, 2, [⟨"t", [], [-1, 0]⟩]⟩)]) :=
  no_threshold_all_returned [1, 0]
    [("doc", ⟨"doc", 1, 2, [⟨"t", [], [-1, 0]⟩]⟩)] 5 (by simp [all_results])

/-! ### C10: the /chat endpoint -/

/-- Whether the parsed request JSON is an object carrying the message
key (a non-object JSON value has no keys). -/
def hasMessageKey : Option Json → Bool
  | some (Json.obj fields) => (fields.lookup "message").isSome
  | _ => false

/-- C10 as stated, first sentence: the endpoint answers 400 exactly when
the request JSON is absent or lacks the message key. -/
def ClaimC10 : Prop := ∀ (data : Option Json)
    (invoke : List ChatMessage → Except String (List ChatMessage)),
  ((chat data invoke).1 = 400 ↔ (data = none ∨ hasMessageKey data = false))

/-- C10 is false on the code: the request JSON array ["message"] has no
message key, yet the endpoint answers 500, not 400 — the Python
membership test succeeds on the array, and the subsequent subscript
raises TypeError outside the try block. -/
theorem chat_400_iff_counterexample : ¬ ClaimC10 := by
  intro h
  have h2 := h (some (.arr [.str "message"])) (fun _ => .ok [])
  rw [show (chat (some (.arr [.str "message"])) (fun _ => .ok [])).1 = 500
    from rfl] at h2
  simp [hasMessageKey] at h2

/-- C10 amended: restricted to requests whose JSON is absent or an
object (the only shapes the endpoint handles without an uncaught
TypeError), the endpoint answers 400 exactly when the JSON is absent or
lacks the message key; when the message key is present it invokes the
graph and answers 200 with the user message followed by the last graph
message (when the graph returns any), or 500 with an error body when the
graph raises. -/
theorem chat_endpoint_behaviour (data : Option Json)
    (invoke : List ChatMessage → Except String (List ChatMessage))
    (hobj : data = none ∨ ∃ fields, data = some (Json.obj fields)) :
    ((chat data invoke).1 = 400 ↔ (data = none ∨ hasMessageKey data = false))
    ∧ (∀ fields v, data = some (Json.obj fields) →
        fields.lookup "message" = some v →
        (∀ e, invoke [⟨v, "human"⟩] = .error e →
          chat data invoke
            = (500, .errorBody ("Erro ao processar sua mensagem: " ++ e)))
        ∧ (∀ msgs m, invoke [⟨v, "human"⟩] = .ok msgs →
            msgs.getLast? = some m →
            chat data invoke
              = (200, .success [⟨v, "human"⟩, ⟨m.content, m.type⟩]
                  (pyGetD fields "thread_id" (.str "20"))))) := by
  rcases hobj with rfl | ⟨fields, rfl⟩
  · refine ⟨by simp [chat], ?_⟩
    intro fields v hdata
    exact absurd hdata (by simp)
  · cases hfe : fields.isEmpty with
    | true =>
      have hfnil : fields = [] := List.isEmpty_iff.mp hfe
      subst hfnil
      refine ⟨by simp [chat, Json.truthy, hasMessageKey], ?_⟩
      intro fields2 v hdata hlk
      have : fields2 = ([] : List (String × Json)) :=
        (Json.obj.inj (Option.some.inj hdata)).symm
      subst this
      simp at hlk
    | false =>
      have htr : (Json.obj fields).truthy = true := by
        simp [Json.truthy, hfe]
      cases hlk : fields.lookup "message" with
      | none =>
        have hchat : chat (some (Json.obj fields)) invoke
            = (400, .errorBody "A mensagem e obrigatoria") := by
          simp [chat, htr, pyContains, hlk]
        refine ⟨by simp [hchat, hasMessageKey, hlk], ?_⟩
        intro fields2 v hdata hlk2
        have : fields2 = fields := (Json.obj.inj (Option.some.inj hdata)).symm
        subst this
        rw [hlk] at hlk2
        exact absurd hlk2 (by simp)
      | some v =>
        have hkey : hasMessageKey (some (Json.obj fields)) = true := by
          simp [hasMessageKey, hlk]
        cases hi : invoke [⟨v, "human"⟩] with
        | error e =>
          have hchat : chat (some (Json.obj fields)) invoke
              = (500, .errorBody ("Erro ao processar sua mensagem: " ++ e)) := by
            simp [chat, htr, pyContains, pySubscript, hlk, hi]
          refine ⟨by simp [hchat, hkey], ?_⟩
          intro fields2 v2 hdata hlk2
          have : fields2 = fields := (Json.obj.inj (Option.some.inj hdata)).symm
          subst this
          have hv : v2 = v := by
            rw [hlk] at hlk2
            exact (Option.some.inj hlk2).symm
          subst hv
          constructor
          · intro e2 hi2
            rw [hi] at hi2
            rw [hchat, Except.error.inj hi2]
          · intro msgs m hi2 hm
            rw [hi] at hi2
            exact absurd hi2 (by simp)
        | ok msgs =>
          have hchat : chat (some (Json.obj fields)) invoke
              = (200, .success (⟨v, "human"⟩ ::
                  (match msgs.getLast? with
                   | some m => [⟨m.content, m.type⟩]
                   | none => []))
                  (pyGetD fields "thread_id" (.str "20"))) := by
            simp [chat, htr, pyContains, pySubscript, hlk, hi]
          refine ⟨by simp [hchat, hkey], ?_⟩
          intro fields2 v2 hdata hlk2
          have : fields2 = fields := (Json.obj.inj (Option.some.inj hdata)).symm
          subst this
          have hv : v2 = v := by
            rw [hlk] at hlk2
            exact (Option.some.inj hlk2).symm
          subst hv
          constructor
          · intro e2 hi2
            rw [hi] at hi2
            exact absurd hi2 (by simp)
          · intro msgs2 m hi2 hm
            have : msgs2 = msgs := by
              rw [hi] at hi2
              exact (Except.ok.inj hi2).symm
            subst this
            rw [hchat, hm]

/-- Witness for the amended C10 at a concrete request. -/
theorem chat_endpoint_behaviour_witness :
    ((chat (some (Json.obj [("message", Json.str "oi")]))
        (fun _ => .ok [⟨Json.str "resposta", "ai"⟩])).1 = 400
      ↔ ((some (Json.obj [("message", Json.str "oi")]) : Option Json) = none
        ∨ hasMessageKey (some (Json.obj [("message", Json.str "oi")])) = false))
    ∧ chat (some (Json.obj [("message", Json.str "oi")]))
        (fun _ => .ok [⟨Json.str "resposta", "ai"⟩])
        = (200, .success [⟨Json.str "oi", "human"⟩, ⟨Json.str "resposta", "ai"⟩]
            (pyGetD [("message", Json.str "oi")] "thread_id" (Json.str "20"))) := by
  have h := chat_endpoint_behaviour (some (Json.obj [("message", Json.str "oi")]))
    (fun _ => .ok [⟨Json.str "resposta", "ai"⟩])
    (Or.inr ⟨[("message", Json.str "oi")], rfl⟩)
  refine ⟨h.1, ?_⟩
  have h2 := (h.2 [("message", Json.str "oi")] (Json.str "oi") rfl rfl).2
    [⟨Json.str "resposta", "ai"⟩] ⟨Json.str "resposta", "ai"⟩ rfl rfl
  exact h2
